import Mathlib

/-!
Verification of the AIO-VA-Key-Games-Tools repository (Go sources) against its
natural-language specification.

The Go code is shallowly embedded: byte buffers become a length plus a byte
function, machine integers become `Nat`/`Int` with explicit truncation
(`% 2 ^ 16`, signed 32-bit reinterpretation), fallible operations return
`Option`, and unbounded loops take an explicit fuel parameter.  Go strings are
byte sequences, so all text produced by the embedded code is modelled as
`List Nat` (one entry per byte); `str` converts an ASCII Lean literal to that
form.  Out-of-range byte reads yield 0 in the model (Go would panic); every
theorem below only exercises in-bounds reads unless explicitly noted.
-/

/-- ASCII string literal as a byte list (all our literals are 7-bit ASCII,
where Unicode code points coincide with bytes). -/
def str (s : String) : List Nat := s.data.map Char.toNat

/-- Byte buffer: models `binarray.Buffer` (a Go byte slice).  `byte i` is the
byte at index `i`; reads past `size` return 0 in the model. -/
structure BArray where
  size : Nat
  byte : Nat → Nat

/-- Wrap a concrete byte list as a buffer. -/
def BArray.ofList (l : List Nat) : BArray :=
  { size := l.length, byte := fun i => l.getD i 0 }

/-- Models `Buffer.GetU8`. -/
def BArray.getU8 (b : BArray) (i : Nat) : Nat := b.byte i

/-- Little-endian unsigned 32-bit read (`binary.LittleEndian.Uint32`). -/
def BArray.getU32 (b : BArray) (i : Nat) : Nat :=
  b.byte i + 256 * b.byte (i + 1) + 65536 * b.byte (i + 2) + 16777216 * b.byte (i + 3)

/-- Reinterpret an unsigned 32-bit value as a signed `int32`. -/
def toInt32 (v : Nat) : Int :=
  if v < 2147483648 then (v : Int) else (v : Int) - 4294967296

/-- Models `Buffer.GetInt`: signed little-endian 32-bit read. -/
def BArray.getInt (b : BArray) (i : Nat) : Int := toInt32 (b.getU32 i)

/-- Models `Buffer.Read(idx, 4)`: the four magic bytes. -/
def BArray.read4 (b : BArray) (i : Nat) : List Nat :=
  [b.byte i, b.byte (i + 1), b.byte (i + 2), b.byte (i + 3)]

/-- Models `Buffer.Read(idx, n)` as a byte list. -/
def BArray.readBytes (b : BArray) (i n : Nat) : List Nat :=
  (List.range n).map (fun k => b.byte (i + k))

/-- Bytes before the first NUL. -/
def takeBeforeZero : List Nat → List Nat
  | [] => []
  | c :: rest => if c = 0 then [] else c :: takeBeforeZero rest

/-- Models `Buffer.ReadSz`: NUL-terminated string out of a fixed-length field. -/
def BArray.readSz (b : BArray) (i n : Nat) : List Nat :=
  takeBeforeZero (b.readBytes i n)

namespace Bytecode

/-! ### Bytecode file headers (`pkg/bytecode`, embedded from `types.go`) -/

def magicKP2K : List Nat := str "KP2K"
def magicRD2K : List Nat := str "RD2K"
def magicKPRL : List Nat := str "KPRL"
def magicRDRL : List Nat := str "RDRL"
def magicKPRM : List Nat := str "KPRM"
def magicRDRM : List Nat := str "RDRM"
def magicD001 : List Nat := [0xd0, 1, 0, 0]
def magicCC01 : List Nat := [0xcc, 1, 0, 0]
def magicB801 : List Nat := [0xb8, 1, 0, 0]

/-- Models `bytecode.IsBytecode`: does the data at `idx` look like a bytecode header? -/
def isBytecode (arr : BArray) (idx : Nat) : Bool :=
  if idx + 8 > arr.size then false
  else
    let id := arr.read4 idx
    if id = magicRDRL ∨ id = magicRD2K ∨ id = magicRDRM then true
    else if id = magicKPRL ∨ id = magicKP2K ∨ id = magicKPRM ∨
            id = magicD001 ∨ id = magicCC01 ∨ id = magicB801 then
      let ver := arr.getInt (idx + 4)
      decide (ver = 10002 ∨ ver = 110002 ∨ ver = 1110002)
    else false

/-- Models `bytecode.UncompressedHeader`. -/
def uncompressedHeader (magic : List Nat) : Bool :=
  magic = magicKPRL ∨ magic = magicKP2K ∨ magic = magicKPRM ∨
  magic = magicRDRL ∨ magic = magicRD2K ∨ magic = magicRDRM

/-- Models `bytecode.FileHeader`. -/
structure FileHeader where
  headerVersion : Nat
  compilerVersion : Int
  dataOffset : Int
  uncompressedSize : Int
  compressedSize : Int
  isCompressed : Bool
  int0x2C : Int
  entryPoints : List Int
  kidokuLnums : List Int
  dramatisPersonae : List (List Nat)
  archived : Bool
deriving DecidableEq

/-- Models `bytecode.EmptyHeader`. -/
def emptyHeader : FileHeader :=
  { headerVersion := 0, compilerVersion := 0, dataOffset := 0
    uncompressedSize := 0, compressedSize := -1, isCompressed := false
    int0x2C := 0, entryPoints := [], kidokuLnums := []
    dramatisPersonae := [], archived := false }

/-- Models `bytecode.ReadFileHeader`: core header fields, or `none` on error. -/
def readFileHeader (arr : BArray) (archived : Bool) : Option FileHeader :=
  if ¬ isBytecode arr 0 then none
  else
    let magic := arr.read4 0
    let compilerVersion : Int :=
      if magic.take 2 = str "RD" then
        if magic.drop 2 = str "RM" then 110002 else 10002
      else arr.getInt 4
    let hdr := { emptyHeader with
                 archived := archived
                 compilerVersion := compilerVersion }
    if magic = magicKP2K ∨ magic = magicRD2K ∨ magic = magicCC01 then
      some { hdr with
        headerVersion := 1
        dataOffset := 0x1cc + arr.getInt 0x20 * 4
        uncompressedSize := arr.getInt 0x24
        int0x2C := arr.getInt 0x28 }
    else if magic = magicKPRL ∨ magic = magicRDRL ∨ magic = magicKPRM ∨
            magic = magicRDRM ∨ magic = magicD001 then
      let compSize := arr.getInt 0x28
      some { hdr with
        headerVersion := 2
        dataOffset := arr.getInt 0x20
        uncompressedSize := arr.getInt 0x24
        compressedSize := if compSize > 0 then compSize else hdr.compressedSize
        isCompressed := compSize > 0
        int0x2C := arr.getInt 0x2c }
    else none

/-- Dramatis-personae reading loop of `ReadFullHeader` (count-many
`u32 length` + raw bytes records starting at `offset`). -/
def readDramatis (arr : BArray) : Nat → Int → List (List Nat)
  | 0, _ => []
  | n + 1, offset =>
    let nameLen := arr.getInt offset.toNat
    arr.readSz (offset.toNat + 4) nameLen.toNat ::
      readDramatis arr n (offset + 4 + nameLen)

/-- Models `bytecode.ReadFullHeader`: adds entry points, kidoku line numbers and (V2)
dramatis personae to the core header. -/
def readFullHeader (arr : BArray) (archived : Bool) : Option FileHeader :=
  match readFileHeader arr archived with
  | none => none
  | some hdr =>
    if hdr.headerVersion = 1 then
      let count := (arr.getInt 0x20).toNat
      some { hdr with
        entryPoints := (List.range 100).map (fun i => arr.getInt (0x30 + i * 4))
        kidokuLnums := (List.range count).map (fun i => arr.getInt (0x1cc + i * 4)) }
    else if hdr.headerVersion = 2 then
      let t1Offset := (arr.getInt 0x08).toNat
      let count := (arr.getInt 0x0c).toNat
      let dpOffset := arr.getInt 0x14
      let dpCount := (arr.getInt 0x18).toNat
      some { hdr with
        entryPoints := (List.range 100).map (fun i => arr.getInt (0x34 + i * 4))
        kidokuLnums := (List.range count).map (fun i => arr.getInt (t1Offset + i * 4))
        dramatisPersonae := readDramatis arr dpCount dpOffset }
    else some hdr

end Bytecode

/-! ### C5: `is_bytecode` vs `read_file_header` on the `\xb8\x01\x00\x00` magic -/

/-- Concrete 8-byte buffer: magic `\xb8\x01\x00\x00`, compiler version 10002. -/
def bufB801 : BArray := BArray.ofList [0xb8, 1, 0, 0, 0x12, 0x27, 0, 0]

/-- C5 counterexample: for the buffer `bufB801` (first four bytes
`\xb8\x01\x00\x00`, 32-bit integer 10002 at offset 4), `is_bytecode` accepts
the buffer but `read_file_header` returns an error instead of a V2 header:
the switch in `ReadFileHeader` has no case for this magic, so it falls to the
default branch.  This refutes the claim that `read_file_header` succeeds. -/
theorem c5_readFileHeader_rejects_b801_counterexample :
    Bytecode.isBytecode bufB801 0 = true ∧
    Bytecode.readFileHeader bufB801 false = none := by
  constructor <;> rfl

/-- C5 amended: for every buffer whose first four bytes are
`\xb8\x01\x00\x00` and whose 32-bit integer at offset 4 is one of
{10002, 110002, 1110002}, `is_bytecode` accepts the buffer, but
`read_file_header` always fails (for any `archived` flag): the magic is
accepted by the validator yet unsupported by the header parser. -/
theorem c5_b801_accepted_by_isBytecode_rejected_by_readFileHeader
    (arr : BArray) (archived : Bool)
    (hm : arr.read4 0 = Bytecode.magicB801)
    (h8 : 8 ≤ arr.size)
    (hv : arr.getInt 4 = 10002 ∨ arr.getInt 4 = 110002 ∨ arr.getInt 4 = 1110002) :
    Bytecode.isBytecode arr 0 = true ∧
    Bytecode.readFileHeader arr archived = none := by
  have hbyte : Bytecode.isBytecode arr 0 = true := by
    unfold Bytecode.isBytecode
    rw [if_neg (by omega)]
    simp only [hm]
    rw [if_neg (by decide), if_pos (by decide)]
    rcases hv with h | h | h <;> simp [h]
  refine ⟨hbyte, ?_⟩
  unfold Bytecode.readFileHeader
  rw [if_neg (by simp [hbyte])]
  simp only [hm]
  rw [if_neg (by decide), if_neg (by decide)]

/-- Witness for the C5 amended theorem at the concrete buffer `bufB801`. -/
theorem c5_b801_witness :
    Bytecode.isBytecode bufB801 0 = true ∧
    Bytecode.readFileHeader bufB801 false = none :=
  c5_b801_accepted_by_isBytecode_rejected_by_readFileHeader bufB801 false
    (by decide) (by decide) (Or.inl (by decide))

namespace Metadata

/-! ### RLdev metadata blocks (embedded from the `metadata` package) -/

/-- Models `metadata.Metadata`. -/
structure MData where
  compilerName : List Nat
  compilerVersion : Int
  targetVersion : List Nat
  textTransform : Nat
deriving DecidableEq

/-- Models `metadata.Empty`: the Go zero value. -/
def empty : MData :=
  { compilerName := [], compilerVersion := 0, targetVersion := [0, 0, 0, 0]
    textTransform := 0 }

/-- Decode the text-transform byte exactly as the Go `switch` does. -/
def transformOfByte (b : Nat) : Nat :=
  match b with
  | 1 => 1
  | 2 => 2
  | 3 => 3
  | _ => 0

/-- Models `metadata.Read` (part_001, lines 55-90): parses a metadata block at `idx`,
or returns `empty` when the block is too short.  Note the source computes
`idLen := stored_id_len + 1` before the `metaLen < idLen+17` comparison. -/
def read (arr : BArray) (idx : Nat) : MData :=
  if idx + 8 > arr.size then empty
  else
    let metaLen := arr.getInt idx
    let idLen := arr.getInt (idx + 4) + 1
    if metaLen < idLen + 17 then empty
    else
      let idx2 := ((idx : Int) + 8 + idLen).toNat
      { compilerName := arr.readSz (idx + 8) idLen.toNat
        compilerVersion := arr.getInt idx2
        targetVersion := [arr.getU8 (idx2 + 4), arr.getU8 (idx2 + 5),
                          arr.getU8 (idx2 + 6), arr.getU8 (idx2 + 7)]
        textTransform := transformOfByte (arr.getU8 (idx2 + 8)) }

/-- Validity threshold exactly as the claim words it: a block is parsed iff
`total_len ≥ id_len + 17`, with `total_len` and `id_len` the two stored
u32 fields; the id field occupies `id_len + 1` bytes (trailing NUL). -/
def readSpecClaim (arr : BArray) (idx : Nat) : MData :=
  if idx + 8 > arr.size then empty
  else
    let totalLen := arr.getInt idx
    let idL := arr.getInt (idx + 4)
    if totalLen ≥ idL + 17 then
      let idx2 := ((idx : Int) + 8 + (idL + 1)).toNat
      { compilerName := arr.readSz (idx + 8) (idL + 1).toNat
        compilerVersion := arr.getInt idx2
        targetVersion := [arr.getU8 (idx2 + 4), arr.getU8 (idx2 + 5),
                          arr.getU8 (idx2 + 6), arr.getU8 (idx2 + 7)]
        textTransform := transformOfByte (arr.getU8 (idx2 + 8)) }
    else empty

/-- Amended validity threshold: a block is parsed iff
`total_len ≥ id_len + 18` in terms of the stored fields (equivalently
`total_len ≥ (id_len + 1) + 17`, counting the NUL terminator of the id). -/
def readSpecAmended (arr : BArray) (idx : Nat) : MData :=
  if idx + 8 > arr.size then empty
  else
    let totalLen := arr.getInt idx
    let idL := arr.getInt (idx + 4)
    if totalLen ≥ idL + 18 then
      let idx2 := ((idx : Int) + 8 + (idL + 1)).toNat
      { compilerName := arr.readSz (idx + 8) (idL + 1).toNat
        compilerVersion := arr.getInt idx2
        targetVersion := [arr.getU8 (idx2 + 4), arr.getU8 (idx2 + 5),
                          arr.getU8 (idx2 + 6), arr.getU8 (idx2 + 7)]
        textTransform := transformOfByte (arr.getU8 (idx2 + 8)) }
    else empty

end Metadata

/-- Concrete metadata block with `total_len = id_len + 17` (stored fields
18 and 1): id `"A"`, compiler version 10002, target version 1.2.3.4,
Western transform. -/
def mbuf : BArray :=
  BArray.ofList [18, 0, 0, 0, 1, 0, 0, 0, 65, 0, 0x12, 0x27, 0, 0, 1, 2, 3, 4, 2]

/-- C6 counterexample: on `mbuf`, the stored fields satisfy
`total_len = id_len + 17` and the 8-byte prefix is in bounds, yet
`Metadata.Read` returns the empty metadata while the claim's reading of the
validity rule would return the parsed block (compiler name `"A"`, version
10002, target 1.2.3.4, Western). -/
theorem c6_metadata_threshold_counterexample :
    mbuf.getInt 0 = mbuf.getInt 4 + 17 ∧
    Metadata.read mbuf 0 = Metadata.empty ∧
    Metadata.readSpecClaim mbuf 0 =
      { compilerName := [65], compilerVersion := 10002
        targetVersion := [1, 2, 3, 4], textTransform := 2 } ∧
    Metadata.readSpecClaim mbuf 0 ≠ Metadata.read mbuf 0 := by
  refine ⟨by decide, by decide, by decide, by decide⟩

/-- C6 amended: `Metadata.Read` treats a block as valid exactly when
`total_len ≥ id_len + 18` in terms of the two stored u32 fields (the source
adds 1 to the stored id length for the NUL before comparing against +17); in
particular a block with `total_len = id_len + 17` is treated as absent. -/
theorem c6_metadata_read_eq_amended_spec (arr : BArray) (idx : Nat) :
    Metadata.read arr idx = Metadata.readSpecAmended arr idx := by
  unfold Metadata.read Metadata.readSpecAmended
  by_cases h8 : idx + 8 > arr.size
  · rw [if_pos h8, if_pos h8]
  · rw [if_neg h8, if_neg h8]
    by_cases hlt : arr.getInt idx < (arr.getInt (idx + 4) + 1) + 17
    · rw [if_pos hlt, if_neg (by omega)]
    · rw [if_neg hlt, if_pos (by omega)]

namespace Kprl

/-! ### SEEN archive validator (`archiver.go`) -/

def maxSeens : Nat := 10000
def indexSize : Nat := 80000

/-- The 23-byte `"\x00Empty RealLive archive"` marker. -/
def emptyArcMagicBytes : List Nat := 0 :: str "Empty RealLive archive"

/-- Models `kprl.SeenEntry`. -/
structure SeenEntry where
  offset : Int
  length : Int
deriving DecidableEq

/-- Models `kprl.getSubfileInfo`. -/
def getSubfileInfo (arc : BArray) (idx : Nat) : SeenEntry :=
  if arc.size ≤ 23 then { offset := 0, length := 0 }
  else { offset := arc.getInt (idx * 8), length := arc.getInt (idx * 8 + 4) }

/-- One pass of `SeenCount`'s slot loop, from slot `i`, with `fuel` slots left
and `count` valid slots seen so far.  `IsBytecode` receives the entry offset
(as in the Go code, where a negative offset would crash; all inputs used here
keep it non-negative). -/
def seenAux (arr : BArray) : Nat → Nat → Nat → Int
  | 0, _, count => (count : Int)
  | fuel + 1, i, count =>
    let entry := getSubfileInfo arr i
    if entry.length = 0 then seenAux arr fuel (i + 1) count
    else if entry.offset + entry.length > (indexSize : Int) ∧
            entry.offset + entry.length ≤ (arr.size : Int) ∧
            Bytecode.isBytecode arr entry.offset.toNat = true then
      seenAux arr fuel (i + 1) (count + 1)
    else if count > 0 then -(count : Int) else -1

/-- Models `kprl.SeenCount` (archiver.go, lines 89-121). -/
def seenCount (arr : BArray) : Int :=
  if 23 ≤ arr.size ∧ arr.readBytes 0 23 = emptyArcMagicBytes then 0
  else if arr.size < indexSize then -1
  else seenAux arr maxSeens 0 0

end Kprl

/-- Concrete 80008-byte archive buffer: slot 0 declares offset 79992 (inside
the index region, below 80 000) and length 16, and the bytes at 79992 carry
the `RDRL` magic; every other index entry is zero. -/
def seenBuf : BArray :=
  { size := 80008
    byte := fun i =>
      if i = 0 then 0x78 else if i = 1 then 0x38 else if i = 2 then 1
      else if i = 4 then 16
      else if i = 79992 then 82 else if i = 79993 then 68
      else if i = 79994 then 82 else if i = 79995 then 76
      else 0 }

lemma seenBuf_byte_eq_zero (n : Nat) (h0 : n ≠ 0) (h1 : n ≠ 1) (h2 : n ≠ 2)
    (h4 : n ≠ 4) (ha : n ≠ 79992) (hb : n ≠ 79993) (hc : n ≠ 79994)
    (hd : n ≠ 79995) : seenBuf.byte n = 0 := by
  simp [seenBuf, h0, h1, h2, h4, ha, hb, hc, hd]

lemma seenBuf_entry_len_zero (j : Nat) (hj : 1 ≤ j) :
    (Kprl.getSubfileInfo seenBuf j).length = 0 := by
  have h0 : seenBuf.byte (j * 8 + 4) = 0 :=
    seenBuf_byte_eq_zero _ (by omega) (by omega) (by omega) (by omega)
      (by omega) (by omega) (by omega) (by omega)
  have h1 : seenBuf.byte (j * 8 + 4 + 1) = 0 :=
    seenBuf_byte_eq_zero _ (by omega) (by omega) (by omega) (by omega)
      (by omega) (by omega) (by omega) (by omega)
  have h2 : seenBuf.byte (j * 8 + 4 + 2) = 0 :=
    seenBuf_byte_eq_zero _ (by omega) (by omega) (by omega) (by omega)
      (by omega) (by omega) (by omega) (by omega)
  have h3 : seenBuf.byte (j * 8 + 4 + 3) = 0 :=
    seenBuf_byte_eq_zero _ (by omega) (by omega) (by omega) (by omega)
      (by omega) (by omega) (by omega) (by omega)
  unfold Kprl.getSubfileInfo
  rw [if_neg (by simp [seenBuf])]
  show BArray.getInt seenBuf (j * 8 + 4) = 0
  unfold BArray.getInt BArray.getU32
  rw [h0, h1, h2, h3]
  rfl

lemma seenBuf_seenAux_const : ∀ (fuel i count : Nat), 1 ≤ i →
    Kprl.seenAux seenBuf fuel i count = (count : Int) := by
  intro fuel
  induction fuel with
  | zero => intro i count _; rfl
  | succ n ih =>
    intro i count hi
    show Kprl.seenAux seenBuf (n + 1) i count = _
    rw [Kprl.seenAux]
    rw [if_pos (seenBuf_entry_len_zero i hi)]
    exact ih (i + 1) count (by omega)

/-- C4: evaluating `SeenCount` on `seenBuf`.  The buffer's only non-empty
slot has offset 79992 < 80 000 (with offset+length = 80008 > 80 000 and a
recognised `RDRL` magic at the offset), and `SeenCount` counts it as *valid*,
returning 1 — not a negative value as the claim (and the validator's own
comment, `offset must be past index`) require: the code tests
`offset+length > 80 000` instead of `offset ≥ 80 000`. -/
theorem c4_seenCount_accepts_low_offset_slot :
    (Kprl.getSubfileInfo seenBuf 0).offset = 79992 ∧
    Kprl.seenCount seenBuf = 1 := by
  refine ⟨by decide, ?_⟩
  have hstart : Kprl.seenCount seenBuf = Kprl.seenAux seenBuf 10000 0 0 := by
    unfold Kprl.seenCount
    rw [if_neg (by decide), if_neg (by decide)]
    rfl
  rw [hstart]
  have hone : Kprl.seenAux seenBuf 10000 0 0 = Kprl.seenAux seenBuf 9999 1 1 := by
    show Kprl.seenAux seenBuf (9999 + 1) 0 0 = _
    rw [Kprl.seenAux]
    rw [if_neg (by decide), if_pos (by decide)]
  rw [hone]
  exact seenBuf_seenAux_const 9999 1 1 (by omega)

namespace Kprl

/-! ### Range grammar (`archiver.go`, `ParseRanges`) -/

/-- Decimal value of a digit run. -/
def digitsVal (l : List Char) : Nat :=
  l.foldl (fun a c => a * 10 + (c.toNat - 48)) 0

/-- Regex `^(\d+)$`: a non-empty all-digit token. -/
def matchDigits (l : List Char) : Option Nat :=
  if l ≠ [] ∧ l.all Char.isDigit then some (digitsVal l) else none

/-- Regex `^(\d+)[-~.](\d+)$`: digits, one of `- ~ .`, digits. -/
def matchRange (l : List Char) : Option (Nat × Nat) :=
  let d1 := l.takeWhile Char.isDigit
  match l.dropWhile Char.isDigit with
  | sep :: d2 =>
    if d1 ≠ [] ∧ (sep = '-' ∨ sep = '~' ∨ sep = '.') ∧
       d2 ≠ [] ∧ d2.all Char.isDigit then
      some (digitsVal d1, digitsVal d2)
    else none
  | [] => none

/-- Regex `^!(\d+)[-~.](\d+)$`. -/
def matchNegRange (l : List Char) : Option (Nat × Nat) :=
  match l with
  | '!' :: rest => matchRange rest
  | _ => none

/-- Regex `^!(\d+)$`. -/
def matchNegSingle (l : List Char) : Option Nat :=
  match l with
  | '!' :: rest => matchDigits rest
  | _ => none

/-- Models `strconv.Atoi`: optional sign, then digits. -/
def atoi (l : List Char) : Option Int :=
  match l with
  | '+' :: rest => (matchDigits rest).map Int.ofNat
  | '-' :: rest => (matchDigits rest).map (fun n => -(n : Int))
  | _ => (matchDigits l).map Int.ofNat

/-- ASCII whitespace (the arguments used here contain none beyond these). -/
def isSpaceCh (c : Char) : Bool :=
  c = ' ' ∨ c = '\t' ∨ c = '\n' ∨ c = '\r'

/-- Models `strings.TrimSpace`. -/
def trimSpace (l : List Char) : List Char :=
  ((l.dropWhile isSpaceCh).reverse.dropWhile isSpaceCh).reverse

/-- The index run `for i := start; i <= end && i < MaxSeens; i++`. -/
def rangeList (s e : Nat) : List Nat :=
  List.range' s (min e 9999 + 1 - s)

/-- The argument loop of `ParseRanges`, threading the accumulated positive
indices and the excluded set (a `map[int]bool` modelled by its key list). -/
def parseRangesAux : List (List Char) → List Nat → List Nat →
    Option (List Nat × List Nat)
  | [], result, excluded => some (result, excluded)
  | arg :: rest, result, excluded =>
    let a := trimSpace arg
    if a = [] then parseRangesAux rest result excluded
    else
      match matchNegRange a with
      | some (s, e) => parseRangesAux rest result (excluded ++ rangeList s e)
      | none =>
        match matchNegSingle a with
        | some n => parseRangesAux rest result (excluded ++ [n])
        | none =>
          match matchRange a with
          | some (s, e) => parseRangesAux rest (result ++ rangeList s e) excluded
          | none =>
            match atoi a with
            | some v =>
              if 0 ≤ v ∧ v < 10000 then
                parseRangesAux rest (result ++ [v.toNat]) excluded
              else parseRangesAux rest result excluded
            | none => none

/-- Models `kprl.ParseRanges` (archiver.go, lines 590-652): `none` models the
`malformed range parameter` error; `some l` the returned index list (the
empty-argument case returns Go `nil`, i.e. "all"). -/
def parseRanges (args : List (List Char)) : Option (List Nat) :=
  if args = [] then some []
  else
    match parseRangesAux args [] [] with
    | none => none
    | some (result, excluded) =>
      let result :=
        if result = [] ∧ excluded ≠ [] then
          (List.range 10000).filter (fun i => decide (i ∉ excluded))
        else if excluded ≠ [] then
          result.filter (fun i => decide (i ∉ excluded))
        else result
      some (List.insertionSort (· ≤ ·) result)

end Kprl

/-- C7 counterexample: `ParseRanges(["5", "5-6"])` returns `[5, 5, 6]` — the
output is sorted but *not* deduplicated, contradicting the claim that the
result of overlapping selectors is `[5, 6]`. -/
theorem c7_parseRanges_duplicates_counterexample :
    Kprl.parseRanges [['5'], ['5', '-', '6']] = some [5, 5, 6] ∧
    [5, 5, 6].Nodup = false := by
  refine ⟨by decide, by decide⟩

/-- C7 amended: for every argument list accepted by `ParseRanges`, the
returned index list is sorted ascending (the final `sort.Ints`), but
duplicate indices produced by overlapping positive selectors are kept. -/
theorem c7_parseRanges_sorted (args : List (List Char)) (l : List Nat)
    (h : Kprl.parseRanges args = some l) : l.Sorted (· ≤ ·) := by
  unfold Kprl.parseRanges at h
  by_cases hargs : args = []
  · rw [if_pos hargs] at h
    cases h
    exact List.sorted_nil
  · rw [if_neg hargs] at h
    rcases haux : Kprl.parseRangesAux args [] [] with _ | ⟨result, excluded⟩ <;>
      rw [haux] at h
    · cases h
    · simp only [Option.some.injEq] at h
      rw [← h]
      exact List.sorted_insertionSort (· ≤ ·) _

/-- Witness for the C7 amended theorem at the concrete argument list
`["5", "5-6"]`. -/
theorem c7_parseRanges_sorted_witness : List.Sorted (· ≤ ·) [5, 5, 6] :=
  c7_parseRanges_sorted [['5'], ['5', '-', '6']] [5, 5, 6] (by decide)

namespace Disasm

/-! ### Bytecode reader and disassembler (`pkg/disasm`) -/

/-- Models `disasm.EngineMode`. -/
inductive EngineMode where
  | mnone
  | realLive
  | avg2000
  | kinetic
deriving DecidableEq

/-- Models `disasm.Reader`: a cursor over `data[origin .. limit]`.  Positions are Go
`int`s, hence `Int`. -/
structure Reader where
  data : BArray
  pos : Int
  origin : Int
  limit : Int
  mode : EngineMode

/-- Models `disasm.NewReader`. -/
def newReader (data : BArray) (origin limit : Int) (mode : EngineMode) : Reader :=
  { data := data, pos := origin, origin := origin, limit := limit, mode := mode }

/-- Models `Reader.RelPos`. -/
def Reader.relPos (r : Reader) : Int := r.pos - r.origin

/-- Models `Reader.AtEnd`. -/
def Reader.atEnd (r : Reader) : Bool := r.pos ≥ r.limit

/-- Models `Reader.Next`: read one byte and advance (`none` on end of data). -/
def Reader.next (r : Reader) : Option (Nat × Reader) :=
  if r.pos ≥ r.limit then none
  else some (r.data.byte r.pos.toNat, { r with pos := r.pos + 1 })

/-- Models `Reader.Peek`. -/
def Reader.peek (r : Reader) : Option Nat :=
  if r.pos ≥ r.limit then none else some (r.data.byte r.pos.toNat)

/-- Advance by one byte (used where the Go code calls `Next` after a
successful `Peek` and discards the byte). -/
def Reader.adv (r : Reader) : Reader := { r with pos := r.pos + 1 }

/-- Models `Reader.ReadInt32` (signed little-endian). -/
def Reader.readInt32 (r : Reader) : Option (Int × Reader) :=
  if r.pos + 4 > r.limit then none
  else some (toInt32 (r.data.getU32 r.pos.toNat), { r with pos := r.pos + 4 })

/-- Models `Reader.ReadUint16` / `GetInt16`. -/
def Reader.readUint16 (r : Reader) : Option (Nat × Reader) :=
  if r.pos + 2 > r.limit then none
  else some (r.data.byte r.pos.toNat + 256 * r.data.byte (r.pos.toNat + 1),
             { r with pos := r.pos + 2 })

/-- Models `Reader.GetIntForMode`: 32-bit under AVG2000, unsigned 16-bit otherwise. -/
def Reader.getIntForMode (r : Reader) : Option (Int × Reader) :=
  if r.mode = EngineMode.avg2000 then r.readInt32
  else (r.readUint16).map (fun p => ((p.1 : Int), p.2))

/-- Models `Reader.Rollback`: move back `n` bytes, clamping at `origin`. -/
def Reader.rollback (r : Reader) (n : Int) : Reader :=
  let p := r.pos - n
  { r with pos := if p < r.origin then r.origin else p }

/-- Models `Reader.Skip`: advance by `n` bytes (no clamping in the source). -/
def Reader.skip (r : Reader) (n : Int) : Reader := { r with pos := r.pos + n }

/-- Outcome of `Reader.Expect`: on a mismatch the byte stays consumed; on end
of data the position is unchanged. -/
inductive ExpectRes where
  | ok
  | mismatch
  | eof
deriving DecidableEq

/-- Models `Reader.Expect` (result plus the reader as the Go method leaves it). -/
def Reader.expect (r : Reader) (expected : Nat) : ExpectRes × Reader :=
  match r.next with
  | none => (ExpectRes.eof, r)
  | some (b, r') => if b = expected then (ExpectRes.ok, r') else (ExpectRes.mismatch, r')

/-- Models `disasm.isShiftJISLead`. -/
def isShiftJISLead (b : Nat) : Bool :=
  (0x81 ≤ b ∧ b ≤ 0x9f) ∨ (0xe0 ≤ b ∧ b ≤ 0xef) ∨ (0xf0 ≤ b ∧ b ≤ 0xfc)

/-- Format `fmt.Sprintf("%d", ·)` on a Go int. -/
def intStr (v : Int) : List Nat := str (toString v)

/-- Zero-padded decimal of width `w` (`%0wd` on a natural number). -/
def natPad (w n : Nat) : List Nat :=
  let s := str (toString n)
  List.replicate (w - s.length) 48 ++ s

/-- Format `%0wd` on a Go int. -/
def intPad (w : Nat) (v : Int) : List Nat :=
  if v < 0 then 45 :: natPad (w - 1) (-v).toNat else natPad w v.toNat

/-- Lowercase hex digit. -/
def hexDigit (d : Nat) : Nat := if d < 10 then 48 + d else 87 + d

/-- Format `fmt.Sprintf("%02x", ·)` on a byte. -/
def hex2 (b : Nat) : List Nat := [hexDigit (b / 16), hexDigit (b % 16)]

/-- Parse outcome: `ok` carries the value and the reader; `err` carries the
reader as left by the Go code (the `*Reader` is mutated in place, so on error
the position remains wherever parsing stopped). -/
inductive PRes (α : Type) where
  | ok (a : α) (r : Reader)
  | err (r : Reader)

/-- The parsed text of a successful parse, if any. -/
def presStr : PRes (List Nat) → Option (List Nat)
  | PRes.ok s _ => some s
  | PRes.err _ => none

mutual

/-- Models `Reader.getExprBool` (`GetExpression` entry point). -/
def getExprBool : Nat → Reader → PRes (List Nat)
  | 0, r => PRes.err r
  | fuel + 1, r =>
    match getExprCond fuel r with
    | PRes.err r => PRes.err r
    | PRes.ok left r => getExprBoolLoop fuel left r

/-- The `&&` / `||` loop of `getExprBool`. -/
def getExprBoolLoop : Nat → List Nat → Reader → PRes (List Nat)
  | 0, _, r => PRes.err r
  | fuel + 1, left, r =>
    match r.peek with
    | none => PRes.ok left r
    | some b =>
      if b = 0x3c then
        match getExprCond fuel r.adv with
        | PRes.err r => PRes.err r
        | PRes.ok right r => getExprBoolLoop fuel (left ++ str " && " ++ right) r
      else if b = 0x3d then
        match getExprCond fuel r.adv with
        | PRes.err r => PRes.err r
        | PRes.ok right r => getExprBoolLoop fuel (left ++ str " || " ++ right) r
      else PRes.ok left r

/-- Models `Reader.getExprCond`: one optional comparison. -/
def getExprCond : Nat → Reader → PRes (List Nat)
  | 0, r => PRes.err r
  | fuel + 1, r =>
    match getExprArith fuel r with
    | PRes.err r => PRes.err r
    | PRes.ok left r =>
      match r.peek with
      | none => PRes.ok left r
      | some b =>
        let condOp : Option (List Nat) :=
          if b = 0x28 then some (str "==")
          else if b = 0x29 then some (str "!=")
          else if b = 0x2a then some (str "<=")
          else if b = 0x2b then some (str "<")
          else if b = 0x2c then some (str ">=")
          else if b = 0x2d then some (str ">")
          else none
        match condOp with
        | none => PRes.ok left r
        | some op =>
          match getExprArith fuel r.adv with
          | PRes.err r => PRes.err r
          | PRes.ok right r =>
            PRes.ok (left ++ str " " ++ op ++ str " " ++ right) r

/-- Models `Reader.getExprArith`. -/
def getExprArith : Nat → Reader → PRes (List Nat)
  | 0, r => PRes.err r
  | fuel + 1, r =>
    match getExprTerm fuel r with
    | PRes.err r => PRes.err r
    | PRes.ok left r => getExprArithLoop fuel left r

/-- The binary-operator loop of `getExprArith`. -/
def getExprArithLoop : Nat → List Nat → Reader → PRes (List Nat)
  | 0, _, r => PRes.err r
  | fuel + 1, left, r =>
    match r.peek with
    | none => PRes.ok left r
    | some b =>
      let arithOp : Option (List Nat) :=
        if b = 0x00 then some (str "+")
        else if b = 0x01 then some (str "-")
        else if b = 0x02 then some (str "*")
        else if b = 0x03 then some (str "/")
        else if b = 0x04 then some (str "%")
        else if b = 0x05 then some (str "&")
        else if b = 0x06 then some (str "|")
        else if b = 0x07 then some (str "^")
        else if b = 0x08 then some (str "<<")
        else if b = 0x09 then some (str ">>")
        else none
      match arithOp with
      | none => PRes.ok left r
      | some op =>
        match getExprTerm fuel r.adv with
        | PRes.err r => PRes.err r
        | PRes.ok right r =>
          getExprArithLoop fuel (left ++ str " " ++ op ++ str " " ++ right) r

/-- Models `Reader.getExprTerm`. -/
def getExprTerm : Nat → Reader → PRes (List Nat)
  | 0, r => PRes.err r
  | fuel + 1, r =>
    match r.next with
    | none => PRes.err r
    | some (b, r) =>
      if b = 0xff then
        match r.readInt32 with
        | none => PRes.err r
        | some (v, r) => PRes.ok (intStr v) r
      else if b = 0xc8 then PRes.ok (str "store") r
      else if b = 0x0a then
        match getExprTerm fuel r with
        | PRes.err r => PRes.err r
        | PRes.ok t r => PRes.ok (str "-" ++ t) r
      else if b = 0x0b then
        match getExprBool fuel r with
        | PRes.err r => PRes.err r
        | PRes.ok e r =>
          let p := r.expect 0x29
          PRes.ok (str "(" ++ e ++ str ")") p.2
      else if 0x14 ≤ b ∧ b ≤ 0x1e then
        if b = 0x14 then
          match getExprTerm fuel r with
          | PRes.err r => PRes.err r
          | PRes.ok t r => PRes.ok (str "~" ++ t) r
        else
          match getExprTerm fuel r with
          | PRes.err r => PRes.err r
          | PRes.ok t r =>
            PRes.ok (str "op_" ++ hex2 b ++ str "(" ++ t ++ str ")") r
      else if b = 36 then readIntVar fuel r
      else PRes.err (r.rollback 1)

/-- Models `Reader.readIntVar`: an integer-variable reference. -/
def readIntVar : Nat → Reader → PRes (List Nat)
  | 0, r => PRes.err r
  | fuel + 1, r =>
    match r.next with
    | none => PRes.err r
    | some (varType, r) =>
      let p := r.expect 91
      let r := if p.1 = ExpectRes.ok then p.2 else p.2.rollback 1
      match getExprBool fuel r with
      | PRes.err r => PRes.err r
      | PRes.ok idx r =>
        let q := r.expect 93
        let r := q.2
        let pfx : List Nat :=
          if varType < 6 then str "int" ++ [65 + varType]
          else if varType = 6 then str "intG"
          else if varType = 7 then str "intZ"
          else if varType = 0x0a then str "intL"
          else str "int_" ++ hex2 varType
        PRes.ok (pfx ++ str "[" ++ idx ++ str "]") r

/-- The quoted-literal loop of `readStringData` (returns normally both on the
closing quote and on end of data). -/
def strLitLoop : Nat → List Nat → Reader → PRes (List Nat)
  | 0, acc, r => PRes.ok acc r
  | fuel + 1, acc, r =>
    match r.next with
    | none => PRes.ok acc r
    | some (c, r) =>
      if c = 34 then PRes.ok (acc ++ [34]) r
      else strLitLoop fuel (acc ++ [c]) r

/-- Models `Reader.readStringData`. -/
def readStringData : Nat → Reader → PRes (List Nat)
  | 0, r => PRes.err r
  | fuel + 1, r =>
    match r.next with
    | none => PRes.err r
    | some (b, r) =>
      if b = 34 then strLitLoop fuel [34] r
      else if b = 0x0a then readStrVar fuel r
      else PRes.err (r.rollback 1)

/-- Models `Reader.readStrVar`. -/
def readStrVar : Nat → Reader → PRes (List Nat)
  | 0, r => PRes.err r
  | fuel + 1, r =>
    match r.next with
    | none => PRes.err r
    | some (varType, r) =>
      let p := r.expect 91
      let r := if p.1 = ExpectRes.ok then p.2 else p.2.rollback 1
      match getExprBool fuel r with
      | PRes.err r => PRes.err r
      | PRes.ok idx r =>
        let q := r.expect 93
        let r := q.2
        let pfx : List Nat :=
          if varType = 0x0c then str "strS"
          else if varType = 0x12 then str "strM"
          else str "str_" ++ hex2 varType
        PRes.ok (pfx ++ str "[" ++ idx ++ str "]") r

/-- Models `Reader.GetData`: a string or an expression. -/
def getData : Nat → Reader → PRes (List Nat)
  | 0, r => PRes.err r
  | fuel + 1, r =>
    match r.peek with
    | none => PRes.err r
    | some b =>
      if b = 34 ∨ b = 0x0a then readStringData fuel r
      else getExprBool fuel r

end

/-- Models `Reader.GetExpression`. -/
def getExpression (fuel : Nat) (r : Reader) : PRes (List Nat) :=
  getExprBool fuel r

end Disasm

namespace Disasm

/-- Models `disasm.CommandElem`. -/
inductive CommandElem where
  | estring (value : List Nat)
  | epointer (offset : Int)
  | estore (value : List Nat)
deriving DecidableEq

/-- Rendering of one element in `Command.Text`. -/
def CommandElem.render : CommandElem → List Nat
  | CommandElem.estring s => s
  | CommandElem.estore s => s
  | CommandElem.epointer off => str "@ptr_" ++ intStr off

/-- Models `disasm.Command` (Go zero values as defaults). -/
structure Command where
  offset : Int := 0
  kepago : List CommandElem := []
  hidden : Bool := false
  unhide : Bool := false
  isJmp : Bool := false
  ctype : List Nat := []
  opcode : List Nat := []
  lineNo : Int := 0
  resIdx : Int := 0
deriving DecidableEq

/-- Models `Command.Text`. -/
def Command.text (c : Command) : List Nat :=
  (c.kepago.map CommandElem.render).flatten

/-- Models `disasm.Options` (the fields the disassembly loop reads). -/
structure Options where
  separateStrings : Bool := false
  readDebugSymbols : Bool := false
  controlCodes : Bool := false
  suppressUncalled : Bool := false
  forcedTarget : EngineMode := EngineMode.mnone
  usesExclKidoku : Bool := false
  startAddress : Int := 0
  endAddress : Int := 0
deriving DecidableEq

/-- Models `disasm.DefaultOptions`. -/
def defaultOptions : Options :=
  { separateStrings := true, controlCodes := true
    startAddress := -1, endAddress := -1 }

/-- Models `disasm.DisassemblyResult` (`Pointers`, a `map[int]bool`, is modelled by
its list of inserted keys; `SeenMap` by its entry-point list; `Error` by a
flag). -/
structure DisResult where
  commands : List Command := []
  resStrs : List (List Nat) := []
  pointers : List Int := []
  mode : EngineMode := EngineMode.mnone
  version : List Nat := []
  header : Bytecode.FileHeader := Bytecode.emptyHeader
  error : Bool := false
  seenMapEntryPoints : List Int := []
deriving DecidableEq

/-- Models `Opcode.String()`: `"%d:%03d:%05d,%d"`. -/
def opcodeStr (t m f o : Nat) : List Nat :=
  intStr t ++ str ":" ++ natPad 3 m ++ str ":" ++ natPad 5 f ++ str "," ++ intStr o

/-- Models `disasm.handleGoto`: builds the goto/gosub command (note: it does *not*
touch `result.Pointers`). -/
def handleGoto (cmd : Command) (f : Nat) (args : List (List Nat)) : Command :=
  let name := if f = 3 then str "gosub" else str "goto"
  let base := { cmd with isJmp := f = 1, kepago := [CommandElem.estring name] }
  match args with
  | [] => base
  | a :: _ =>
    { base with kepago := base.kepago ++ [CommandElem.estring (str "(" ++ a ++ str ")")] }

/-- Models `disasm.handleCondGoto`. -/
def handleCondGoto (cmd : Command) (f : Nat) (args : List (List Nat)) : Command :=
  let name :=
    if f = 5 then str "goto_if"
    else if f = 8 then str "goto_unless"
    else if f = 9 then str "gosub_if"
    else if f = 16 then str "gosub_unless"
    else str "goto_if"
  let body :=
    if args = [] then name
    else name ++ str "(" ++ List.intercalate (str ", ") args ++ str ")"
  { cmd with kepago := [CommandElem.estring body] }

/-- The `argc`-iteration argument loop of `readFuncArgs`, followed by the
optional closing parenthesis. -/
def readFuncArgsLoop (fuel : Nat) : Nat → List (List Nat) → Reader →
    PRes (List (List Nat))
  | 0, args, r =>
    match r.peek with
    | some b => if b = 41 then PRes.ok args r.adv else PRes.ok args r
    | none => PRes.ok args r
  | i + 1, args, r =>
    match getData fuel r with
    | PRes.err r => PRes.err r
    | PRes.ok a r => readFuncArgsLoop fuel i (args ++ [a]) r

/-- Models `disasm.readFuncArgs`. -/
def readFuncArgs (fuel : Nat) (r : Reader) (argc : Nat) : PRes (List (List Nat)) :=
  match r.peek with
  | none => PRes.err r
  | some b =>
    let r := if b = 40 then r.adv else r
    readFuncArgsLoop fuel argc [] r

/-- Models `disasm.readFunction`: a `#` function call (argument-parse failures emit a
placeholder command and do not abort). -/
def readFunction (fuel : Nat) (r : Reader) (result : DisResult) (offset : Int)
    (t m f o argc : Nat) : Reader × DisResult :=
  let opStr := opcodeStr t m f o
  match readFuncArgs fuel r argc with
  | PRes.err r =>
    let cmd : Command :=
      { offset := offset, opcode := opStr
        kepago := [CommandElem.estring (str "op<" ++ opStr ++ str ">(?)")] }
    (r, { result with commands := result.commands ++ [cmd] })
  | PRes.ok args r =>
    let cmd : Command := { offset := offset }
    let cmd :=
      if m = 1 ∧ (f = 1 ∨ f = 3) then handleGoto cmd f args
      else if m = 1 ∧ (f = 5 ∨ f = 8 ∨ f = 9 ∨ f = 16) then handleCondGoto cmd f args
      else if m = 5 ∧ f = 1 then
        { cmd with kepago := [CommandElem.estring (str "ret")], isJmp := true }
      else
        let body :=
          if args = [] then str "op<" ++ opStr ++ str ">"
          else str "op<" ++ opStr ++ str ">(" ++ List.intercalate (str ", ") args ++ str ")"
        { cmd with kepago := [CommandElem.estring body], opcode := opStr }
    (r, { result with commands := result.commands ++ [cmd] })

/-- Models `disasm.readAssignment` (`$` prefix).  `none` models a propagated error. -/
def readAssignment (fuel : Nat) (r : Reader) (result : DisResult) (offset : Int) :
    Option (Reader × DisResult) :=
  match readIntVar fuel r with
  | PRes.err _ => none
  | PRes.ok dest r =>
    match r.next with
    | none => none
    | some (opByte, r) =>
      let op : List Nat :=
        if opByte = 0x14 then str "="
        else if opByte = 0x15 then str "+="
        else if opByte = 0x16 then str "-="
        else if opByte = 0x17 then str "*="
        else if opByte = 0x18 then str "/="
        else if opByte = 0x19 then str "%="
        else if opByte = 0x1a then str "&="
        else if opByte = 0x1b then str "|="
        else if opByte = 0x1c then str "^="
        else if opByte = 0x1d then str "<<="
        else if opByte = 0x1e then str ">>="
        else str "?=" ++ hex2 opByte ++ str "="
      let p := r.expect 0x5c
      let r := p.2
      let sr :=
        match getExprBool fuel r with
        | PRes.err r => (str "???", r)
        | PRes.ok src r => (src, r)
      let q := sr.2.expect 0x5c
      let r := q.2
      let cmd : Command :=
        { offset := offset
          kepago := [CommandElem.estring (dest ++ str " " ++ op ++ str " " ++ sr.1)] }
      some (r, { result with commands := result.commands ++ [cmd] })

/-- The ruby-group loop inside `readTextout`. -/
def rubyLoop : Nat → List Nat → Reader → List Nat × Reader
  | 0, acc, r => (acc, r)
  | fuel + 1, acc, r =>
    if r.atEnd then (acc, r)
    else
      match r.next with
      | none => (acc, r)
      | some (c, r) =>
        if c = 5 then rubyLoop fuel (acc ++ str "\x7d\x7b") r
        else if c = 6 then (acc ++ str "\x7d", r)
        else if isShiftJISLead c ∧ ¬ r.atEnd then
          match r.next with
          | none => rubyLoop fuel (acc ++ [c]) r
          | some (c2, r) => rubyLoop fuel (acc ++ [c, c2]) r
        else rubyLoop fuel (acc ++ [c]) r

/-- The byte loop of `readTextout`.  Note the `0x03` case: the Go `break`
statement inside the `switch` exits only the switch, so after emitting `\p`
the loop *continues* with the next byte. -/
def textoutLoop (opts : Options) : Nat → List Nat → Reader → List Nat × Reader
  | 0, acc, r => (acc, r)
  | fuel + 1, acc, r =>
    if r.atEnd then (acc, r)
    else
      match r.peek with
      | none => (acc, r)
      | some b =>
        if b = 0 ∨ b = 35 ∨ b = 36 ∨ b = 10 ∨ b = 44 ∨ b = 64 ∨ b = 33 then (acc, r)
        else
          let r := r.adv
          if b = 3 then textoutLoop opts fuel (acc ++ str "\\p") r
          else if b = 4 then
            let p := rubyLoop fuel (acc ++ str "\x7bruby ") r
            textoutLoop opts fuel p.1 p.2
          else if b = 1 then textoutLoop opts fuel (acc ++ str "\\n") r
          else if b = 2 then textoutLoop opts fuel (acc ++ str "\\w") r
          else if isShiftJISLead b then
            match r.next with
            | none => textoutLoop opts fuel (acc ++ [b]) r
            | some (b2, r) => textoutLoop opts fuel (acc ++ [b, b2]) r
          else if 0x20 ≤ b ∧ b < 0x80 then textoutLoop opts fuel (acc ++ [b]) r
          else if opts.controlCodes then
            textoutLoop opts fuel (acc ++ str "\\x\x7b" ++ hex2 b ++ str "\x7d") r
          else textoutLoop opts fuel acc r

/-- Models `disasm.readTextout`: reads a displayed-text run and records it as a
resource string (never fails). -/
def readTextout (fuel : Nat) (r : Reader) (result : DisResult) (offset : Int)
    (opts : Options) : Reader × DisResult :=
  let p := textoutLoop opts fuel [] r
  let text := p.1
  let r := p.2
  if text = [] then (r, result)
  else
    let resIdx := result.resStrs.length
    let cmd : Command :=
      { offset := offset, ctype := str "textout"
        resIdx := (resIdx : Int)
        kepago :=
          if opts.separateStrings then
            [CommandElem.estring (str "<res_" ++ natPad 4 resIdx ++ str ">")]
          else [CommandElem.estring ([39] ++ text ++ [39])] }
    (r, { result with resStrs := result.resStrs ++ [text]
                      commands := result.commands ++ [cmd] })

/-- Models `disasm.readCommand`: one command from the stream (`none` aborts the
disassembly of the stream). -/
def readCommand (fuel : Nat) (r : Reader) (hdr : Bytecode.FileHeader)
    (result : DisResult) (opts : Options) : Option (Reader × DisResult) :=
  let offset := r.relPos
  match r.next with
  | none => none
  | some (b, r) =>
    if b = 0 then
      let cmd : Command :=
        { offset := offset, isJmp := true
          kepago := [CommandElem.estring (str "halt")] }
      some (r, { result with commands := result.commands ++ [cmd] })
    else if b = 35 then
      match r.next with
      | none => none
      | some (opType, r) =>
        match r.next with
        | none => none
        | some (opModule, r) =>
          match r.readUint16 with
          | none => none
          | some (funcNum, r) =>
            match r.readUint16 with
            | none => none
            | some (argc, r) =>
              match r.next with
              | none => none
              | some (overload, r) =>
                some (readFunction fuel r result offset opType opModule funcNum
                        overload argc)
    else if b = 36 then readAssignment fuel r result offset
    else if b = 10 then
      match r.getIntForMode with
      | none => none
      | some (lineNum, r) =>
        let cmd : Command :=
          { offset := offset
            hidden := ¬ opts.readDebugSymbols, ctype := str "dbline"
            lineNo := lineNum
            kepago := [CommandElem.estring (str "#line " ++ intStr lineNum)] }
        some (r, { result with commands := result.commands ++ [cmd] })
    else if b = 44 then
      let cmd : Command :=
        { offset := offset
          hidden := ¬ opts.readDebugSymbols, ctype := str "debug"
          kepago := [CommandElem.estring (str ",")] }
      some (r, { result with commands := result.commands ++ [cmd] })
    else if b = 64 ∨ b = 33 then
      match r.getIntForMode with
      | none => none
      | some (idx, r) =>
        let kidokuVal : Int :=
          if 0 ≤ idx ∧ idx < (hdr.kidokuLnums.length : Int) then
            hdr.kidokuLnums.getD idx.toNat 0
          else 0
        let entryIdx := kidokuVal - 1000000
        if 0 ≤ entryIdx then
          let cmd : Command :=
            { offset := offset, unhide := true
              ctype := str "entrypoint"
              kepago := [CommandElem.estring (str "#entrypoint " ++ intPad 3 entryIdx
                          ++ str " // Z" ++ intPad 2 entryIdx)] }
          some (r, { result with
                     commands := result.commands ++ [cmd]
                     seenMapEntryPoints := result.seenMapEntryPoints ++ [offset] })
        else
          let cmd : Command :=
            { offset := offset
              hidden := ¬ opts.readDebugSymbols, ctype := str "kidoku"
              kepago := [CommandElem.estring (str "\x7b- kidoku " ++ intPad 3 idx
                          ++ str " -\x7d")] }
          some (r, { result with commands := result.commands ++ [cmd] })
    else some (readTextout fuel (r.rollback 1) result offset opts)

/-- The main disassembly loop of `Disassemble` (fuel-bounded; each Go
iteration consumes at least one byte, so any fuel beyond the stream length is
enough). -/
def mainLoop : Nat → Reader → Bytecode.FileHeader → DisResult → Options →
    Reader × DisResult
  | 0, r, _, result, _ => (r, result)
  | fuel + 1, r, hdr, result, opts =>
    if r.atEnd then (r, result)
    else
      match readCommand fuel r hdr result opts with
      | none => (r, { result with error := true })
      | some (r, result) => mainLoop fuel r hdr result opts

/-- Models `disasm.Disassemble` (disasm_test.go lines 675-740): header, mode and
bounds selection, then the main loop. -/
def disassemble (arr : BArray) (opts : Options) (fuel : Nat) : Option DisResult :=
  match Bytecode.readFullHeader arr true with
  | none => none
  | some hdr =>
    let mode :=
      if opts.forcedTarget ≠ EngineMode.mnone then opts.forcedTarget
      else if hdr.headerVersion = 1 then EngineMode.avg2000
      else EngineMode.realLive
    let version : List Nat :=
      if mode = EngineMode.avg2000 then [1, 0, 0, 0] else [1, 2, 7, 0]
    let startAddr :=
      if opts.startAddress > hdr.dataOffset ∧ opts.startAddress < (arr.size : Int)
      then opts.startAddress else hdr.dataOffset
    let endAddr :=
      if opts.endAddress > 0 ∧ opts.endAddress < (arr.size : Int) ∧
         opts.endAddress > startAddr
      then opts.endAddress else (arr.size : Int)
    let reader := newReader arr startAddr endAddr mode
    let result : DisResult :=
      { mode := mode, version := version, header := hdr }
    some (mainLoop fuel reader hdr result opts).2

/-- The pointer set of a disassembly outcome (`[]` when disassembly failed). -/
def resultPointers : Option DisResult → List Int
  | none => []
  | some res => res.pointers

end Disasm

/-! ### C8: expression-grammar examples -/

/-- C8: the recursive-descent expression parser evaluates the spec's
examples: `[0xFF, 0x2A, 0, 0, 0]` parses to `"42"` and
`[0xFF, 2, 0, 0, 0, 0x00, 0xFF, 3, 0, 0, 0]` parses to `"2 + 3"`. -/
theorem c8_expression_examples :
    Disasm.presStr (Disasm.getExpression 10
      (Disasm.newReader (BArray.ofList [0xff, 0x2a, 0, 0, 0]) 0 5
        Disasm.EngineMode.realLive)) = some (str "42") ∧
    Disasm.presStr (Disasm.getExpression 15
      (Disasm.newReader (BArray.ofList [0xff, 2, 0, 0, 0, 0x00, 0xff, 3, 0, 0, 0])
        0 11 Disasm.EngineMode.realLive)) = some (str "2 + 3") :=
  ⟨rfl, rfl⟩

/-! ### C2: textout and the `0x03` page break -/

/-- C2: the textout state machine does **not** terminate the run at a `0x03`
byte.  On the stream `[0x01, 0x02, 0x03, 0x41, 0x00]` the run emits
`\n`, `\w`, `\p` — and then **continues**, appending the `0x41` (`A`) that
follows the `0x03`, producing the resource string `"\n\w\pA"` and stopping
only at the `0x00` terminator (final position 4).  The Go `break` in the
`case b == 0x03` arm exits the `switch`, not the loop, contradicting both
the claim and the code's own comment (`// End text on page break`). -/
theorem c2_textout_continues_after_page_break :
    (let p := Disasm.readTextout 20
       (Disasm.newReader (BArray.ofList [1, 2, 3, 0x41, 0]) 0 5
         Disasm.EngineMode.realLive) {} 0 Disasm.defaultOptions
     (p.2.resStrs, p.2.commands.map Disasm.Command.text, p.1.pos)) =
    ([str "\\n\\w\\pA"], [str "<res_0000>"], 4) := rfl

namespace Disasm

/-! ### C9: reader position never moves before the origin -/

/-- The three cursor-moving operations of the claim. -/
inductive ROp where
  | next
  | skip (n : Int)
  | rollback (n : Int)
deriving DecidableEq

/-- Apply one operation (a failed `Next` at the limit leaves the reader
unchanged). -/
def applyOp (r : Reader) : ROp → Reader
  | ROp.next =>
    match r.next with
    | none => r
    | some p => p.2
  | ROp.skip n => r.skip n
  | ROp.rollback n => r.rollback n

/-- Apply a sequence of operations. -/
def applyOps (r : Reader) (ops : List ROp) : Reader := ops.foldl applyOp r

/-- Predicate: `Skip` is called with a byte count: its argument is non-negative. -/
def skipNonneg : ROp → Bool
  | ROp.skip n => decide (0 ≤ n)
  | _ => true

lemma applyOp_inv (r : Reader) (op : ROp) (h : r.origin ≤ r.pos)
    (hn : skipNonneg op = true) :
    (applyOp r op).origin = r.origin ∧ (applyOp r op).origin ≤ (applyOp r op).pos := by
  cases op with
  | next =>
    simp only [applyOp, Reader.next]
    by_cases hp : r.pos ≥ r.limit
    · simp only [if_pos hp]
      exact ⟨trivial, h⟩
    · simp only [if_neg hp]
      exact ⟨trivial, by omega⟩
  | skip n =>
    simp only [skipNonneg, decide_eq_true_eq] at hn
    simp only [applyOp, Reader.skip]
    exact ⟨trivial, by omega⟩
  | rollback n =>
    simp only [applyOp, Reader.rollback]
    by_cases hp : r.pos - n < r.origin
    · simp only [if_pos hp]
      exact ⟨trivial, le_refl _⟩
    · simp only [if_neg hp]
      exact ⟨trivial, by omega⟩

lemma applyOps_inv : ∀ (ops : List ROp) (r : Reader), r.origin ≤ r.pos →
    (∀ op ∈ ops, skipNonneg op = true) →
    (applyOps r ops).origin = r.origin ∧
      (applyOps r ops).origin ≤ (applyOps r ops).pos := by
  intro ops
  induction ops with
  | nil => intro r h _; exact ⟨rfl, h⟩
  | cons op rest ih =>
    intro r h hall
    have h1 := applyOp_inv r op h (hall op (by simp))
    have h2 := ih (applyOp r op) (h1.1 ▸ h1.2) (fun o ho => hall o (by simp [ho]))
    refine ⟨h2.1.trans h1.1, h2.2⟩

end Disasm

/-- C9: starting from a reader created with `NewReader`, every sequence of
`Next`, `Skip` and `Rollback` operations (with `Skip` given byte counts,
i.e. non-negative arguments) keeps `pos ≥ origin`: `Rollback` clamps the
position to `origin` whenever it would move before it. -/
theorem c9_reader_pos_never_below_origin (data : BArray) (origin limit : Int)
    (mode : Disasm.EngineMode) (ops : List Disasm.ROp)
    (h : ∀ op ∈ ops, Disasm.skipNonneg op = true) :
    origin ≤ (Disasm.applyOps (Disasm.newReader data origin limit mode) ops).pos := by
  have h0 : (Disasm.newReader data origin limit mode).origin ≤
      (Disasm.newReader data origin limit mode).pos := le_refl _
  have := Disasm.applyOps_inv ops (Disasm.newReader data origin limit mode) h0 h
  have h2 := this.2
  rw [this.1] at h2
  exact h2

/-- Witness for C9 at a concrete reader and operation sequence (a `Next`, a
`Skip` of 2, a `Rollback` of 5 — which over-rolls and is clamped — and
another `Next`). -/
theorem c9_reader_pos_witness :
    (0 : Int) ≤ (Disasm.applyOps
      (Disasm.newReader (BArray.ofList [7, 7, 7]) 0 3 Disasm.EngineMode.realLive)
      [Disasm.ROp.next, Disasm.ROp.skip 2, Disasm.ROp.rollback 5,
       Disasm.ROp.next]).pos :=
  c9_reader_pos_never_below_origin (BArray.ofList [7, 7, 7]) 0 3
    Disasm.EngineMode.realLive
    [Disasm.ROp.next, Disasm.ROp.skip 2, Disasm.ROp.rollback 5, Disasm.ROp.next]
    (by decide)


namespace Disasm

/-! ### C3: the pointer set is never populated -/

lemma readFunction_pointers (fuel : Nat) (r : Reader) (result : DisResult)
    (offset : Int) (t m f o argc : Nat) :
    (readFunction fuel r result offset t m f o argc).2.pointers =
      result.pointers := by
  unfold readFunction
  split <;> rfl

lemma readTextout_pointers (fuel : Nat) (r : Reader) (result : DisResult)
    (offset : Int) (opts : Options) :
    (readTextout fuel r result offset opts).2.pointers = result.pointers := by
  simp only [readTextout]
  by_cases htext : (textoutLoop opts fuel [] r).1 = []
  · rw [if_pos htext]
  · rw [if_neg htext]

lemma readAssignment_pointers (fuel : Nat) (r : Reader) (result : DisResult)
    (offset : Int) (r' : Reader) (res' : DisResult)
    (h : readAssignment fuel r result offset = some (r', res')) :
    res'.pointers = result.pointers := by
  unfold readAssignment at h
  split at h
  · exact Option.noConfusion h
  · split at h
    · exact Option.noConfusion h
    · simp only [Option.some.injEq, Prod.mk.injEq] at h
      rw [← h.2]

lemma readCommand_pointers (fuel : Nat) (r : Reader) (hdr : Bytecode.FileHeader)
    (result : DisResult) (opts : Options) (r' : Reader) (res' : DisResult)
    (h : readCommand fuel r hdr result opts = some (r', res')) :
    res'.pointers = result.pointers := by
  unfold readCommand at h
  split at h
  · exact Option.noConfusion h
  · split at h
    · simp only [Option.some.injEq, Prod.mk.injEq] at h
      rw [← h.2]
    · split at h
      · split at h
        · exact Option.noConfusion h
        · split at h
          · exact Option.noConfusion h
          · split at h
            · exact Option.noConfusion h
            · split at h
              · exact Option.noConfusion h
              · split at h
                · exact Option.noConfusion h
                · simp only [Option.some.injEq, Prod.ext_iff] at h
                  rw [← h.2]
                  exact readFunction_pointers _ _ _ _ _ _ _ _ _
      · split at h
        · exact readAssignment_pointers _ _ _ _ _ _ h
        · split at h
          · split at h
            · exact Option.noConfusion h
            · simp only [Option.some.injEq, Prod.mk.injEq] at h
              rw [← h.2]
          · split at h
            · simp only [Option.some.injEq, Prod.mk.injEq] at h
              rw [← h.2]
            · split at h
              · split at h
                · exact Option.noConfusion h
                · split at h <;>
                    (simp only [] at h
                     split at h <;>
                       (simp only [Option.some.injEq, Prod.mk.injEq] at h
                        rw [← h.2]))
              · simp only [Option.some.injEq, Prod.ext_iff] at h
                rw [← h.2]
                exact readTextout_pointers _ _ _ _ _

lemma mainLoop_pointers : ∀ (fuel : Nat) (r : Reader)
    (hdr : Bytecode.FileHeader) (result : DisResult) (opts : Options),
    (mainLoop fuel r hdr result opts).2.pointers = result.pointers := by
  intro fuel
  induction fuel with
  | zero => intro r hdr result opts; rfl
  | succ n ih =>
    intro r hdr result opts
    show (mainLoop (n + 1) r hdr result opts).2.pointers = _
    rw [mainLoop]
    split
    · rfl
    · split
      · rfl
      · rename_i heq
        rw [ih]
        exact readCommand_pointers _ _ _ _ _ _ _ heq

end Disasm

/-- Concrete 469-byte bytecode file: `RDRL` magic, data offset 456, empty
kidoku table and dramatis personae, and code
`[#, 0, 1, 1, 0, 1, 0, 0xFF, 0xE8, 3, 0, 0]` — a `goto 1000`. -/
def dbuf : BArray :=
  { size := 469
    byte := fun i =>
      if i = 0 then 82 else if i = 1 then 68 else if i = 2 then 82
      else if i = 3 then 76
      else if i = 0x20 then 0xc8 else if i = 0x21 then 1
      else if i = 456 then 35
      else if i = 458 then 1 else if i = 459 then 1
      else if i = 461 then 1
      else if i = 464 then 255
      else if i = 465 then 232 else if i = 466 then 3
      else 0 }

/-- The header `ReadFullHeader` parses out of `dbuf`. -/
def dhdr : Bytecode.FileHeader :=
  { headerVersion := 2, compilerVersion := 10002, dataOffset := 456,
    uncompressedSize := 0, compressedSize := -1, isCompressed := false,
    int0x2C := 0, entryPoints := List.replicate 100 0, kidokuLnums := [],
    dramatisPersonae := [], archived := true }

set_option maxHeartbeats 4000000 in
/-- C3: nothing in the disassembler ever adds an offset to `result.Pointers`
(`handleGoto` and the entrypoint branch do not touch the map), so — contrary
to the claim — the pointer set is always empty, including after a goto.
First conjunct: for every input buffer, option set and fuel, the pointer set
of the disassembly result is empty.  Second conjunct: disassembling the
concrete file `dbuf`, whose code section is the `goto 1000` stream, succeeds
(no error) with a single `goto(1000)` jump command and an empty pointer
set. -/
theorem c3_pointer_set_always_empty :
    (∀ (arr : BArray) (opts : Disasm.Options) (fuel : Nat),
       Disasm.resultPointers (Disasm.disassemble arr opts fuel) = []) ∧
    (Disasm.disassemble dbuf Disasm.defaultOptions 50).map
      (fun res => (res.pointers, res.commands.map Disasm.Command.text,
                   res.commands.map Disasm.Command.isJmp, res.error)) =
      some ([], [str "goto(1000)"], [true], false) := by
  constructor
  · intro arr opts fuel
    unfold Disasm.disassemble
    cases h : Bytecode.readFullHeader arr true with
    | none => rfl
    | some hdr =>
      simp only [Disasm.resultPointers]
      rw [Disasm.mainLoop_pointers]
  · have h1 : Bytecode.readFullHeader dbuf true = some dhdr := by decide
    unfold Disasm.disassemble
    rw [h1]
    decide

namespace Siglus

/-! ### SiglusEngine LZ77 codec (`Siglus go/siglus/compress.go`) and the
per-index string obfuscation (`DumpSS` / `encryptString`) -/

def lookback : Nat := 4096
def level : Nat := 17
def acceptLevel : Nat := 3

/-- The byte-comparison loop of `searchData`
(`for matchLen < maxMatch && buf[start+matchLen] == buf[pos+matchLen]`). -/
def matchLenAux (buf : List Nat) (start pos : Nat) : Nat → Nat → Nat
  | 0, ml => ml
  | rem + 1, ml =>
    if buf.getD (start + ml) 0 = buf.getD (pos + ml) 0 then
      matchLenAux buf start pos rem (ml + 1)
    else ml

/-- The offset-scanning loop of `searchData` (`for off := 1; off <= maxSearch`),
tracking the best (strictly longer) match and breaking once `bestLen`
reaches `maxMatch`. -/
def searchAux (buf : List Nat) (pos maxMatch : Nat) :
    Nat → Nat → Nat → Nat → Nat × Nat
  | 0, _, bestOff, bestLen => (bestOff, bestLen)
  | rem + 1, off, bestOff, bestLen =>
    let ml := matchLenAux buf (pos - off) pos maxMatch 0
    let p := if ml > bestLen then (off, ml) else (bestOff, bestLen)
    if p.2 = maxMatch then p
    else searchAux buf pos maxMatch rem (off + 1) p.1 p.2

/-- Models `siglus.searchData`: best match in the sliding window, returned as
`(offset, length-2)`, or `(0, 0)` if no acceptable match. -/
def searchData (buf : List Nat) (pos : Nat) : Nat × Nat :=
  if pos < acceptLevel then (0, 0)
  else
    let maxSearch := if pos > lookback then lookback else pos
    let maxMatch := if pos + level > buf.length then buf.length - pos else level
    if maxMatch < acceptLevel then (0, 0)
    else
      let p := searchAux buf pos maxMatch maxSearch 1 0 0
      if p.2 < acceptLevel then (0, 0) else (p.1, p.2 - 2)

/-- Compressor state: input cursor, output cursor, output buffer. -/
structure CState where
  inPos : Nat
  outPos : Nat
  out : List Nat

/-- The 8-op inner loop of `Compress` (`for i := 0; i < 8; i++`), returning
the state and the control byte.  The 16-bit back-reference token is
`uint16((offset << 4) | (mlen & 0x0F))`, i.e. truncated modulo `2^16`. -/
def compressInner (inp : List Nat) : Nat → Nat → CState → Nat → CState × Nat
  | 0, _, st, ctrl => (st, ctrl)
  | iters + 1, i, st, ctrl =>
    if st.inPos ≥ inp.length then (st, ctrl)
    else
      let sd := searchData inp st.inPos
      let next :=
        if sd.1 = 0 then
          let out := if st.outPos ≥ st.out.length then st.out ++ [0] else st.out
          ({ inPos := st.inPos + 1, outPos := st.outPos + 1,
             out := out.set st.outPos (inp.getD st.inPos 0) : CState },
           ctrl ||| (1 <<< i))
        else
          let ref := (sd.1 * 16 + sd.2 % 16) % 65536
          let out := if st.outPos + 1 ≥ st.out.length then st.out ++ [0, 0] else st.out
          ({ inPos := st.inPos + sd.2 + 2, outPos := st.outPos + 2,
             out := (out.set st.outPos (ref % 256)).set (st.outPos + 1) (ref / 256) :
               CState },
           ctrl)
      if next.1.inPos ≥ inp.length then next
      else compressInner inp iters (i + 1) next.1 next.2

/-- Little-endian 32-bit store into a byte list. -/
def writeU32 (l : List Nat) (i v : Nat) : List Nat :=
  (((l.set i (v % 256)).set (i + 1) (v / 256 % 256)).set
    (i + 2) (v / 65536 % 256)).set (i + 3) (v / 16777216 % 256)

/-- The outer loop of `Compress` (`for inPos <= srcLen`), fuel-bounded:
`none` means the given number of iterations did not make the loop condition
false.  The header write and truncation after the loop are modelled in the
exit branch. -/
def compressLoop (inp : List Nat) : Nat → CState → Option (List Nat)
  | 0, _ => none
  | fuel + 1, st =>
    if st.inPos ≤ inp.length then
      let ctrlPos := st.outPos
      let st1 : CState := { st with outPos := st.outPos + 1 }
      let p := compressInner inp 8 0 st1 0
      let out :=
        if ctrlPos < p.1.out.length then p.1.out.set ctrlPos p.2 else p.1.out
      compressLoop inp fuel { p.1 with out := out }
    else
      let compLen := st.outPos
      let out := writeU32 (writeU32 st.out 0 compLen) 4 inp.length
      some (out.take compLen)

/-- Models `siglus.Compress`: `none` when the outer loop has not terminated within
`fuel` iterations. -/
def compress (inp : List Nat) (fuel : Nat) : Option (List Nat) :=
  compressLoop inp fuel
    { inPos := 0, outPos := 8, out := List.replicate (8 + inp.length * 2) 0 }

/-- The back-reference copy loop of `Decompress`
(`for j := 0; j < copyLen && dst < decLen; j++`). -/
def copyRef (decLen offset : Nat) : Nat → List Nat → Nat → List Nat × Nat
  | 0, out, dst => (out, dst)
  | j + 1, out, dst =>
    if dst < decLen then
      copyRef decLen offset j (out.set dst (out.getD (dst - offset) 0)) (dst + 1)
    else (out, dst)

/-- The 8-op inner loop of `Decompress`. -/
def decompInner (decLen : Nat) : Nat → Nat → List Nat → List Nat → Nat →
    List Nat × Nat × List Nat
  | 0, _, out, src, dst => (out, dst, src)
  | iters + 1, flag, out, src, dst =>
    if dst < decLen then
      match src with
      | [] => (out, dst, [])
      | s0 :: srest =>
        if flag % 2 = 1 then
          decompInner decLen iters (flag / 2) (out.set dst s0) srest (dst + 1)
        else
          match srest with
          | [] => (out, dst, s0 :: srest)
          | s1 :: srest2 =>
            let ref := s0 + 256 * s1
            let copyLen := ref % 16 + 2
            let offset := ref / 16
            let p := copyRef decLen offset copyLen out dst
            decompInner decLen iters (flag / 2) p.1 srest2 p.2
    else (out, dst, src)

/-- The outer loop of `Decompress` (consumes at least one flag byte per
iteration, so `fuel = length src + 1` always suffices). -/
def decompOuter (decLen : Nat) : Nat → List Nat → List Nat → Nat → List Nat
  | 0, out, _, _ => out
  | fuel + 1, out, src, dst =>
    if dst < decLen then
      match src with
      | [] => out
      | flag :: srest =>
        let p := decompInner decLen 8 flag out srest dst
        decompOuter decLen fuel p.1 p.2.2 p.2.1
    else out

/-- Models `siglus.Decompress`: reads the `[complen u32][declen u32]` frame header
and inflates the stream (`none` models the `nil` returned for inputs shorter
than 8 bytes). -/
def decompress (data : List Nat) : Option (List Nat) :=
  if data.length < 8 then none
  else
    let decLen := data.getD 4 0 + 256 * data.getD 5 0 + 65536 * data.getD 6 0 +
      16777216 * data.getD 7 0
    some (decompOuter decLen (data.length + 1) (List.replicate decLen 0)
      (data.drop 8) 0)

/-- The per-index 16-bit obfuscation key `uint16(i * 0x7087)`. -/
def ssXorKey (i : Nat) : Nat := i * 0x7087 % 65536

/-- XOR every UTF-16 code unit with the index key, as both the decryption in
`DumpSS` and the encryption in `encryptString` do (`u16 ^= key`). -/
def ssXorUnits (units : List Nat) (i : Nat) : List Nat :=
  units.map (fun u => (u ^^^ ssXorKey i) % 65536)

end Siglus

lemma compressLoop_stuck_at_end (inp : List Nat) : ∀ (fuel : Nat)
    (st : Siglus.CState), st.inPos = inp.length →
    Siglus.compressLoop inp fuel st = none := by
  intro fuel
  induction fuel with
  | zero => intro st _; rfl
  | succ n ih =>
    intro st hst
    show Siglus.compressLoop inp (n + 1) st = none
    rw [Siglus.compressLoop]
    rw [if_pos (by omega)]
    have hinner : Siglus.compressInner inp 8 0
        ({ st with outPos := st.outPos + 1 } : Siglus.CState) 0 =
        ({ st with outPos := st.outPos + 1 }, 0) := by
      rw [Siglus.compressInner]
      rw [if_pos (by simp [hst])]
    simp only [hinner]
    exact ih _ hst

/-- C1: `Compress` never terminates.  The outer loop in the Go source runs
`for inPos <= srcLen`, and `inPos` never exceeds `srcLen`, so once the whole
input is consumed the loop spins forever; consequently
`decompress(compress(x)) == x` cannot hold for any `x`.  Formally: on the
empty input (where the loop is stuck from the start), no amount of fuel makes
the embedded loop terminate. -/
theorem c1_compress_never_terminates (fuel : Nat) :
    Siglus.compress [] fuel = none :=
  compressLoop_stuck_at_end [] fuel _ rfl

lemma ssxor_round (i a : Nat) (ha : a < 65536) :
    ((a ^^^ Siglus.ssXorKey i) % 65536 ^^^ Siglus.ssXorKey i) % 65536 = a := by
  have hkey : Siglus.ssXorKey i < 65536 := Nat.mod_lt _ (by norm_num)
  have ha16 : a < 2 ^ 16 := by norm_num; exact ha
  have hkey16 : Siglus.ssXorKey i < 2 ^ 16 := by norm_num; exact hkey
  have hx : a ^^^ Siglus.ssXorKey i < 65536 := by
    have := Nat.xor_lt_two_pow ha16 hkey16
    norm_num at this
    exact this
  rw [Nat.mod_eq_of_lt hx, Nat.xor_cancel_right, Nat.mod_eq_of_lt ha]

lemma ssxor_map_round (i : Nat) : ∀ (units : List Nat),
    (∀ u ∈ units, u < 65536) →
    List.map ((fun u => (u ^^^ Siglus.ssXorKey i) % 65536) ∘
      (fun u => (u ^^^ Siglus.ssXorKey i) % 65536)) units = units := by
  intro units
  induction units with
  | nil => intro _; rfl
  | cons a l ih =>
    intro h
    simp only [List.map_cons, Function.comp_apply]
    rw [ssxor_round i a (h a (by simp))]
    rw [ih (fun u hu => h u (by simp [hu]))]

/-- C10: the Siglus per-index string obfuscation is self-inverse — XORing
each 16-bit code unit with `uint16(i * 0x7087)` twice restores the original
sequence, so the dump-time decryption in `DumpSS` is the exact inverse of the
inject-time `encryptString` at the same index (arithmetic modulo `2^16`). -/
theorem c10_ss_xor_self_inverse (i : Nat) (units : List Nat)
    (h : ∀ u ∈ units, u < 65536) :
    Siglus.ssXorUnits (Siglus.ssXorUnits units i) i = units := by
  unfold Siglus.ssXorUnits
  rw [List.map_map]
  exact ssxor_map_round i units h

/-- Witness for C10 at a concrete index and code-unit sequence. -/
theorem c10_ss_xor_witness :
    Siglus.ssXorUnits (Siglus.ssXorUnits [72, 257, 65535] 3) 3 = [72, 257, 65535] :=
  c10_ss_xor_self_inverse 3 [72, 257, 65535] (by decide)
